import Mathlib

/-!
Verification of the todo-app store and date utility (`src/todo.py`).

The Python module is shallowly embedded: JSON values parsed by `json.loads`
become the inductive `Json`; the persisted file's observable states become
`FileState` (missing, unparseable, or holding a parsed JSON value);
`json.dumps` followed by `json.loads` is the identity on parsed values, so
`save_todos` is modelled as storing the serialized array directly.
`datetime.strptime` is embedded for the three fixed formats the program
uses, following CPython's `_strptime` regexes and `datetime` construction.
-/

namespace TodoApp

/-- A JSON value as produced by `json.loads`.  Numbers are modelled as
integers (the program never manipulates numeric fields beyond truthiness). -/
inductive Json where
  | null
  | bool (b : Bool)
  | num (n : Int)
  | str (s : String)
  | arr (elems : List Json)
  | obj (members : List (String × Json))

/-- Python truthiness (`bool(v)`) of a JSON value: `None` and `False` are
falsy, numbers are truthy iff nonzero, strings/lists/dicts iff nonempty. -/
def pyTruthy : Json → Bool
  | .null => false
  | .bool b => b
  | .num n => n != 0
  | .str s => s != ""
  | .arr l => !l.isEmpty
  | .obj m => !m.isEmpty

/-- The characters Python's `str.strip()` removes (ASCII whitespace). -/
def isPySpace (c : Char) : Bool :=
  c = ' ' || c = '\t' || c = '\n' || c = '\x0d' || c = '\x0b' || c = '\x0c'

/-- `not s.strip()`: the string is empty or consists of whitespace only. -/
def isBlank (s : String) : Bool :=
  s.toList.all isPySpace

/-- `dict.get` on the members of a JSON object (keys are unique in any
value produced by `json.loads`). -/
def getKey (members : List (String × Json)) (k : String) : Option Json :=
  members.lookup k

/-- `d[k] = v` on a JSON object: replace the value at an existing key in
place, otherwise append the binding.  Non-objects are left unchanged
(the program only ever assigns into dicts). -/
def dictSet (j : Json) (k : String) (v : Json) : Json :=
  match j with
  | .obj m =>
    if (getKey m k).isSome then
      .obj (m.map (fun p => if p.1 = k then (p.1, v) else p))
    else
      .obj (m ++ [(k, v)])
  | other => other

/-- `_normalize_todo` (src/todo.py:13-24): validate a parsed JSON value
into a todo record, or reject it. -/
def normalize_todo (item : Json) : Option Json :=
  match item with
  | .obj members =>
    let task := getKey members "task"
    let done := (getKey members "done").getD (.bool false)
    match task with
    | some (.str t) =>
      if isBlank t then none
      else
        let base := [("task", Json.str t), ("done", Json.bool (pyTruthy done))]
        match getKey members "due" with
        | some (.str d) =>
          if isBlank d then some (.obj base) else some (.obj (base ++ [("due", Json.str d)]))
        | _ => some (.obj base)
    | _ => none
  | _ => none

/-- Observable states of the persisted file: absent, present but not valid
JSON, or present and parsing to a JSON value. -/
inductive FileState where
  | missing
  | invalidJson
  | content (j : Json)

/-- `load_todos` (src/todo.py:27-42): missing file or unparseable JSON or a
non-array top level give `[]`; otherwise the array's elements are
normalized, dropping the rejects, in order. -/
def load_todos : FileState → List Json
  | .missing => []
  | .invalidJson => []
  | .content j =>
    match j with
    | .arr items => items.filterMap normalize_todo
    | _ => []

/-- `save_todos` (src/todo.py:45-50): the list is serialized and atomically
replaces the file; re-parsing the serialized text yields the same JSON
array, so the resulting state holds it directly. -/
def save_todos (todos : List Json) : FileState :=
  .content (.arr todos)

/-- A record in the §3 canonical shape produced by normalization: exactly
the keys `task` (a string, non-empty after trimming), `done` (a boolean)
and optionally `due` (a string, non-empty after trimming), in this order. -/
def canonicalRecord : Json → Bool
  | .obj [(k1, .str t), (k2, .bool _)] =>
    k1 = "task" && k2 = "done" && !isBlank t
  | .obj [(k1, .str t), (k2, .bool _), (k3, .str d)] =>
    k1 = "task" && k2 = "done" && k3 = "due" && !isBlank t && !isBlank d
  | _ => false

/-- The §3 record invariants as observable through key lookup: `task` is a
string non-empty after trimming, `done` is a boolean, and `due`, if
present, is a non-empty string. -/
def recordInv (j : Json) : Bool :=
  match j with
  | .obj m =>
    (match getKey m "task" with
     | some (.str t) => !isBlank t
     | _ => false) &&
    (match getKey m "done" with
     | some (.bool _) => true
     | _ => false) &&
    (match getKey m "due" with
     | none => true
     | some (.str d) => d != ""
     | some _ => false)
  | _ => false

/-! ## Date utility

`datetime.strptime` embedded for the three formats the program uses.
CPython's `_strptime` matches the whole input against a regex built from
the format — `%Y` is exactly four digits, `%m` is `1[0-2]|0[1-9]|[1-9]`,
`%d` is `3[0-1]|[1-2]\d|0[1-9]|[1-9]| [1-9]` (note the space-digit
alternative) — and then constructs a `datetime`, which raises `ValueError`
on an impossible date (year outside 1..9999, day past the month's end). -/

/-- A calendar date as held by `datetime.date` / `datetime.datetime`. -/
structure Date where
  year : Nat
  month : Nat
  day : Nat
deriving DecidableEq, Repr

/-- `calendar.isleap` / the Gregorian leap-year rule used by `datetime`. -/
def isLeapYear (y : Nat) : Bool :=
  y % 4 = 0 && (y % 100 != 0 || y % 400 = 0)

/-- Length of a month in the proleptic Gregorian calendar (`datetime`'s
`_days_in_month`); 0 for an out-of-range month number. -/
def daysInMonth (y m : Nat) : Nat :=
  if m = 1 then 31 else if m = 2 then (if isLeapYear y then 29 else 28)
  else if m = 3 then 31 else if m = 4 then 30 else if m = 5 then 31
  else if m = 6 then 30 else if m = 7 then 31 else if m = 8 then 31
  else if m = 9 then 30 else if m = 10 then 31 else if m = 11 then 30
  else if m = 12 then 31 else 0

/-- Whether `datetime.date(y, m, d)` succeeds: `MINYEAR <= y <= MAXYEAR`
and the day fits the month. -/
def validDate (y m d : Nat) : Bool :=
  1 ≤ y && y ≤ 9999 && 1 ≤ m && m ≤ 12 && 1 ≤ d && d ≤ daysInMonth y m

def digitVal (c : Char) : Nat :=
  c.toNat - '0'.toNat

/-- Match `%Y` (`\d\d\d\d`): exactly four digits. -/
def matchYear4 : List Char → Option (Nat × List Char)
  | c1 :: c2 :: c3 :: c4 :: rest =>
    if c1.isDigit && c2.isDigit && c3.isDigit && c4.isDigit then
      some (1000 * digitVal c1 + 100 * digitVal c2 + 10 * digitVal c3 + digitVal c4, rest)
    else none
  | _ => none

/-- Match `%m` (`1[0-2]|0[1-9]|[1-9]`).  The alternatives never overlap in
a way the following separator could disambiguate, so first-match suffices. -/
def matchMonth : List Char → Option (Nat × List Char)
  | c1 :: c2 :: rest =>
    if c1 = '1' && '0' ≤ c2 && c2 ≤ '2' then some (10 + digitVal c2, rest)
    else if c1 = '0' && '1' ≤ c2 && c2 ≤ '9' then some (digitVal c2, rest)
    else if '1' ≤ c1 && c1 ≤ '9' then some (digitVal c1, c2 :: rest)
    else none
  | [c1] =>
    if '1' ≤ c1 && c1 ≤ '9' then some (digitVal c1, []) else none
  | [] => none

/-- Match `%d` (`3[0-1]|[1-2]\d|0[1-9]|[1-9]| [1-9]`), including the
space-then-digit alternative CPython's regex allows. -/
def matchDay : List Char → Option (Nat × List Char)
  | c1 :: c2 :: rest =>
    if c1 = '3' && '0' ≤ c2 && c2 ≤ '1' then some (30 + digitVal c2, rest)
    else if '1' ≤ c1 && c1 ≤ '2' && c2.isDigit then
      some (10 * digitVal c1 + digitVal c2, rest)
    else if c1 = '0' && '1' ≤ c2 && c2 ≤ '9' then some (digitVal c2, rest)
    else if '1' ≤ c1 && c1 ≤ '9' then some (digitVal c1, c2 :: rest)
    else if c1 = ' ' && '1' ≤ c2 && c2 ≤ '9' then some (digitVal c2, rest)
    else none
  | [c1] =>
    if '1' ≤ c1 && c1 ≤ '9' then some (digitVal c1, []) else none
  | [] => none

/-- `datetime.strptime(s, "%Y-%m-%d")`. -/
def strptimeIso (s : String) : Option Date :=
  match matchYear4 s.toList with
  | some (y, '-' :: r1) =>
    match matchMonth r1 with
    | some (m, '-' :: r2) =>
      match matchDay r2 with
      | some (d, []) => if validDate y m d then some ⟨y, m, d⟩ else none
      | _ => none
    | _ => none
  | _ => none

/-- `datetime.strptime(s, "%m/%d/%Y")`. -/
def strptimeUs (s : String) : Option Date :=
  match matchMonth s.toList with
  | some (m, '/' :: r1) =>
    match matchDay r1 with
    | some (d, '/' :: r2) =>
      match matchYear4 r2 with
      | some (y, []) => if validDate y m d then some ⟨y, m, d⟩ else none
      | _ => none
    | _ => none
  | _ => none

/-- `datetime.strptime(s, "%m/%d")`.  With no year in the input,
`_strptime` temporarily uses 1904 for Feb 29 but sets the year back to
1900 before `datetime` is constructed, so `datetime(1900, m, d)` is what
must succeed: Feb 29 never parses, and the result carries year 1900. -/
def strptimeMd (s : String) : Option Date :=
  match matchMonth s.toList with
  | some (m, '/' :: r1) =>
    match matchDay r1 with
    | some (d, []) => if validDate 1900 m d then some ⟨1900, m, d⟩ else none
    | _ => none
  | _ => none

/-- Zero-left-pad the decimal rendering of `n` to width `w`. -/
def padZero (w n : Nat) : String :=
  String.mk (List.replicate (w - (Nat.repr n).length) '0') ++ Nat.repr n

/-- `d.strftime("%Y-%m-%d")`, the canonical rendering of a date. -/
def fmtYmd (d : Date) : String :=
  padZero 4 d.year ++ "-" ++ padZero 2 d.month ++ "-" ++ padZero 2 d.day

/-- `parse_date` (src/todo.py:92-102), with `date.today().year` passed in
as `todayYear`.  The three formats are tried in order inside one
`try/except ValueError`, so a `ValueError` raised by
`parsed.replace(year=...)` on the `%m/%d` branch also just moves on —
after which no format is left and `None` is returned. -/
def parse_date (todayYear : Nat) (dateStr : String) : Option String :=
  match strptimeIso dateStr with
  | some dt => some (fmtYmd dt)
  | none =>
    match strptimeUs dateStr with
    | some dt => some (fmtYmd dt)
    | none =>
      match strptimeMd dateStr with
      | some dt =>
        if validDate todayYear dt.month dt.day then
          some (fmtYmd ⟨todayYear, dt.month, dt.day⟩)
        else none
      | none => none

/-- `date._days_before_year`: days between 0001-01-01 and Jan 1 of `y`. -/
def daysBeforeYear (y : Nat) : Nat :=
  let n := y - 1
  n * 365 + n / 4 - n / 100 + n / 400

/-- `date._days_before_month`: days in year `y` before month `m` begins. -/
def daysBeforeMonth (y m : Nat) : Nat :=
  ((List.range (m - 1)).map (fun i => daysInMonth y (i + 1))).sum

/-- `date.toordinal()`: proleptic Gregorian ordinal, 0001-01-01 is day 1. -/
def toOrdinal (d : Date) : Nat :=
  daysBeforeYear d.year + daysBeforeMonth d.year d.month + d.day

/-- `format_due_date` (src/todo.py:53-73), with `date.today()` passed in
as `today`.  `if not due` is Python truthiness: both `None` and the empty
string short-circuit to `""`. -/
def format_due_date (today : Date) (due : Option String) (done : Bool) : String :=
  match due with
  | none => ""
  | some s =>
    if s = "" then ""
    else if done then " (due: " ++ s ++ ")"
    else
      match strptimeIso s with
      | none => " (due: " ++ s ++ ")"
      | some dueDate =>
        let daysLeft : Int := (toOrdinal dueDate : Int) - (toOrdinal today : Int)
        if daysLeft < 0 then " \x1b[91m(OVERDUE: " ++ s ++ ")\x1b[0m"
        else if daysLeft = 0 then " \x1b[93m(due: TODAY)\x1b[0m"
        else if daysLeft = 1 then " \x1b[93m(due: tomorrow)\x1b[0m"
        else " (due: " ++ s ++ ")"

/-! ## Store operations built on Load/Save -/

/-- Outcome of `add_todo`: either the record that was appended and saved,
or the "Invalid date format" report (in which case nothing is saved). -/
inductive AddOutcome where
  | added (record : Json)
  | invalidDate

/-- Outcome of `complete_todo` / `remove_todo`: success, or the "Invalid
todo number" report (in which case nothing is saved). -/
inductive IndexOutcome where
  | ok
  | invalidIndex
deriving DecidableEq, Repr

/-- `Option` on a string is truthy iff it is present and non-empty
(Python `if due:` with `due: str | None`). -/
def optStrTruthy : Option String → Bool
  | none => false
  | some s => s != ""

/-- `add_todo` (src/todo.py:105-119), with `date.today().year` passed in
for the `parse_date` call.  Returns the resulting file state and outcome. -/
def add_todo (todayYear : Nat) (fs : FileState) (task : String)
    (due : Option String) : FileState × AddOutcome :=
  let todos := load_todos fs
  let todo0 := Json.obj [("task", .str task), ("done", .bool false)]
  if optStrTruthy due then
    match parse_date todayYear (due.getD "") with
    | some parsedDue =>
      let todo1 := dictSet todo0 "due" (.str parsedDue)
      (save_todos (todos ++ [todo1]), .added todo1)
    | none => (fs, .invalidDate)
  else
    (save_todos (todos ++ [todo0]), .added todo0)

/-- `l[i] = f(l[i])` for a 0-based in-range index (identity out of range),
as in `todos[index - 1]["done"] = True`. -/
def listModify (l : List Json) (i : Nat) (f : Json → Json) : List Json :=
  match l, i with
  | [], _ => []
  | x :: xs, 0 => f x :: xs
  | x :: xs, n + 1 => x :: listModify xs n f

/-- `complete_todo` (src/todo.py:122-130). -/
def complete_todo (fs : FileState) (index : Int) : FileState × IndexOutcome :=
  let todos := load_todos fs
  if 1 ≤ index ∧ index ≤ (todos.length : Int) then
    let todos1 := listModify todos (index - 1).toNat
      (fun t => dictSet t "done" (.bool true))
    (save_todos todos1, .ok)
  else
    (fs, .invalidIndex)

/-- `remove_todo` (src/todo.py:133-141), `todos.pop(index - 1)`. -/
def remove_todo (fs : FileState) (index : Int) : FileState × IndexOutcome :=
  let todos := load_todos fs
  if 1 ≤ index ∧ index ≤ (todos.length : Int) then
    (save_todos (todos.eraseIdx (index - 1).toNat), .ok)
  else
    (fs, .invalidIndex)

/-- Key lookup on a JSON object (`r[k]` / `r.get(k)` on a record). -/
def jGet (j : Json) (k : String) : Option Json :=
  match j with
  | .obj m => getKey m k
  | _ => none

/-! ## Helper lemmas -/

theorem length_listModify (l : List Json) (i : Nat) (f : Json → Json) :
    (listModify l i f).length = l.length := by
  induction l generalizing i with
  | nil => rfl
  | cons x xs ih =>
    match i with
    | 0 => rfl
    | n + 1 => simp [listModify, ih]

theorem getD_listModify_ne (l : List Json) (i : Nat) (f : Json → Json)
    (j : Nat) (d : Json) (hne : j ≠ i) :
    (listModify l i f).getD j d = l.getD j d := by
  induction l generalizing i j with
  | nil => rfl
  | cons x xs ih =>
    match i, j with
    | 0, 0 => exact absurd rfl hne
    | 0, _ + 1 => rfl
    | _ + 1, 0 => rfl
    | n + 1, k + 1 =>
      simpa [listModify, List.getD] using ih n k (fun h => hne (by omega))

theorem getD_listModify_eq (l : List Json) (i : Nat) (f : Json → Json)
    (d : Json) (h : i < l.length) :
    (listModify l i f).getD i d = f (l.getD i d) := by
  induction l generalizing i with
  | nil => simp at h
  | cons x xs ih =>
    match i with
    | 0 => rfl
    | n + 1 => simpa [listModify, List.getD] using ih n (by simpa using h)

theorem length_eraseIdx_succ (l : List Json) (i : Nat) (h : i < l.length) :
    (l.eraseIdx i).length + 1 = l.length := by
  induction l generalizing i with
  | nil => simp at h
  | cons x xs ih =>
    match i with
    | 0 => rfl
    | n + 1 => simpa [List.eraseIdx] using ih n (by simpa using h)

theorem getD_eraseIdx_lt (l : List Json) (i j : Nat) (d : Json) (h : j < i) :
    (l.eraseIdx i).getD j d = l.getD j d := by
  induction l generalizing i j with
  | nil => rfl
  | cons x xs ih =>
    match i, j with
    | 0, _ => omega
    | _ + 1, 0 => rfl
    | n + 1, k + 1 =>
      simpa [List.eraseIdx, List.getD] using ih n k (by omega)

theorem getD_eraseIdx_ge (l : List Json) (i j : Nat) (d : Json) (h : i ≤ j) :
    (l.eraseIdx i).getD j d = l.getD (j + 1) d := by
  induction l generalizing i j with
  | nil => rfl
  | cons x xs ih =>
    match i, j with
    | 0, _ => rfl
    | _ + 1, 0 => omega
    | n + 1, k + 1 =>
      simpa [List.eraseIdx, List.getD] using ih n k (by omega)

theorem dictSet_done_of_canonical {r : Json} (h : canonicalRecord r = true) :
    jGet (dictSet r "done" (.bool true)) "task" = jGet r "task" ∧
    jGet (dictSet r "done" (.bool true)) "due" = jGet r "due" ∧
    jGet (dictSet r "done" (.bool true)) "done" = some (.bool true) := by
  match r with
  | .obj [(k1, .str t), (k2, .bool b)] =>
    simp only [canonicalRecord, Bool.and_eq_true, decide_eq_true_eq,
      Bool.not_eq_true'] at h
    obtain ⟨⟨h1, h2⟩, _⟩ := h
    subst h1; subst h2
    refine ⟨rfl, rfl, rfl⟩
  | .obj [(k1, .str t), (k2, .bool b), (k3, .str d)] =>
    simp only [canonicalRecord, Bool.and_eq_true, decide_eq_true_eq,
      Bool.not_eq_true'] at h
    obtain ⟨⟨⟨⟨h1, h2⟩, h3⟩, _⟩, _⟩ := h
    subst h1; subst h2; subst h3
    refine ⟨rfl, rfl, rfl⟩

theorem mem_of_getD {l : List Json} {i : Nat} {d : Json} (h : i < l.length) :
    l.getD i d ∈ l := by
  induction l generalizing i with
  | nil => simp at h
  | cons x xs ih =>
    match i with
    | 0 => exact List.Mem.head _
    | n + 1 => exact List.Mem.tail _ (ih (by simpa using h))

theorem normalize_todo_fixpoint {j : Json} (h : canonicalRecord j = true) :
    normalize_todo j = some j := by
  match j with
  | .obj [(k1, .str t), (k2, .bool b)] =>
    simp only [canonicalRecord, Bool.and_eq_true, decide_eq_true_eq,
      Bool.not_eq_true'] at h
    obtain ⟨⟨h1, h2⟩, h3⟩ := h
    subst h1; subst h2
    simp [normalize_todo, getKey, List.lookup, pyTruthy, h3]
  | .obj [(k1, .str t), (k2, .bool b), (k3, .str d)] =>
    simp only [canonicalRecord, Bool.and_eq_true, decide_eq_true_eq,
      Bool.not_eq_true'] at h
    obtain ⟨⟨⟨⟨h1, h2⟩, h3⟩, h4⟩, h5⟩ := h
    subst h1; subst h2; subst h3
    simp [normalize_todo, getKey, List.lookup, pyTruthy, h4, h5]

theorem canonical_of_normalize {i j : Json} (h : normalize_todo i = some j) :
    canonicalRecord j = true := by
  match i with
  | .null | .bool _ | .num _ | .str _ | .arr _ => simp [normalize_todo] at h
  | .obj members =>
    simp only [normalize_todo] at h
    rcases htask : getKey members "task" with _ | tv
    · rw [htask] at h; simp at h
    · rw [htask] at h
      match tv with
      | .null | .bool _ | .num _ | .arr _ | .obj _ => simp at h
      | .str t =>
        by_cases hb : isBlank t
        · simp [hb] at h
        · simp only [hb, if_false, Bool.false_eq_true] at h
          rcases hdue : getKey members "due" with _ | dv
          · rw [hdue] at h
            simp only [Option.some_inj] at h
            subst h; simp [canonicalRecord, hb]
          · rw [hdue] at h
            match dv with
            | .null | .bool _ | .num _ | .arr _ | .obj _ =>
              simp only [Option.some_inj] at h
              subst h; simp [canonicalRecord, hb]
            | .str d =>
              by_cases hbd : isBlank d
              · simp only [hbd, if_true] at h
                simp only [Option.some_inj] at h
                subst h; simp [canonicalRecord, hb]
              · simp only [hbd, if_false, Bool.false_eq_true] at h
                simp only [Option.some_inj] at h
                subst h; simp [canonicalRecord, hb, hbd]

theorem canonical_of_mem_load {fs : FileState} {j : Json}
    (h : j ∈ load_todos fs) : canonicalRecord j = true := by
  match fs with
  | .missing => simp [load_todos] at h
  | .invalidJson => simp [load_todos] at h
  | .content v =>
    match v with
    | .null | .bool _ | .num _ | .str _ | .obj _ => simp [load_todos] at h
    | .arr items =>
      simp only [load_todos, List.mem_filterMap] at h
      obtain ⟨i, _, hi⟩ := h
      exact canonical_of_normalize hi

theorem filterMap_normalize_of_canonical (l : List Json)
    (h : ∀ j ∈ l, canonicalRecord j = true) :
    l.filterMap normalize_todo = l := by
  induction l with
  | nil => rfl
  | cons x xs ih =>
    rw [List.filterMap_cons, normalize_todo_fixpoint (h x (by simp))]
    rw [ih (fun j hj => h j (by simp [hj]))]

theorem filterMap_normalize_load (fs : FileState) :
    (load_todos fs).filterMap normalize_todo = load_todos fs :=
  filterMap_normalize_of_canonical _ (fun _ hj => canonical_of_mem_load hj)

theorem recordInv_of_canonical {j : Json} (h : canonicalRecord j = true) :
    recordInv j = true := by
  have hblank : ∀ s : String, isBlank s = false → (s != "") = true := by
    intro s hs
    rcases s with ⟨l⟩
    cases l with
    | nil => simp [isBlank] at hs
    | cons c cs =>
      simp only [bne_iff_ne, ne_eq]
      intro heq
      have hdata := congrArg String.data heq
      simp at hdata
  match j with
  | .obj [(k1, .str t), (k2, .bool b)] =>
    simp only [canonicalRecord, Bool.and_eq_true, decide_eq_true_eq,
      Bool.not_eq_true'] at h
    obtain ⟨⟨h1, h2⟩, h3⟩ := h
    subst h1; subst h2
    simp [recordInv, getKey, List.lookup, h3]
  | .obj [(k1, .str t), (k2, .bool b), (k3, .str d)] =>
    simp only [canonicalRecord, Bool.and_eq_true, decide_eq_true_eq,
      Bool.not_eq_true'] at h
    obtain ⟨⟨⟨⟨h1, h2⟩, h3⟩, h4⟩, h5⟩ := h
    subst h1; subst h2; subst h3
    simp only [recordInv, getKey, List.lookup]
    simp only [show (("task" == "task") = true) from rfl]
    simp [h4, hblank d h5]

theorem daysInMonth_le (y m : Nat) : daysInMonth y m ≤ 31 := by
  match m with
  | 2 => simp only [daysInMonth]; cases isLeapYear y <;> simp
  | 0 | 1 | 3 | 4 | 5 | 6 | 7 | 8 | 9 | 10 | 11 | 12 => simp [daysInMonth]
  | n + 13 => simp [daysInMonth]

theorem parse_date_md_valid (y : Nat) (s : String) (m d : Nat)
    (h1 : strptimeIso s = none) (h2 : strptimeUs s = none)
    (h3 : strptimeMd s = some ⟨1900, m, d⟩)
    (h4 : validDate y m d = true) :
    parse_date y s = some (fmtYmd ⟨y, m, d⟩) := by
  simp [parse_date, h1, h2, h3, h4]

/-! ## Claim theorems -/

/-- C1: for every list of records each in the §3 canonical shape (`task` a
string non-empty after trimming, `done` a boolean, `due` if present a
string non-empty after trimming), `Save` of that list followed by `Load`
returns a collection equal to the saved list, in the same order. -/
theorem save_load_roundtrip (records : List Json)
    (h : ∀ r ∈ records, canonicalRecord r = true) :
    load_todos (save_todos records) = records :=
  filterMap_normalize_of_canonical records h

theorem save_load_roundtrip_witness :
    load_todos (save_todos
      [Json.obj [("task", Json.str "a"), ("done", Json.bool false)],
       Json.obj [("task", Json.str "b"), ("done", Json.bool true),
                 ("due", Json.str "2026-01-15")]]) =
      [Json.obj [("task", Json.str "a"), ("done", Json.bool false)],
       Json.obj [("task", Json.str "b"), ("done", Json.bool true),
                 ("due", Json.str "2026-01-15")]] :=
  save_load_roundtrip _ (by decide)

/-- C3: `Load` returns `[]` when the file is missing, contains invalid
JSON, or parses to a non-array; otherwise it returns exactly the array
elements on which `Normalize` succeeds, normalized, in original relative
order. -/
theorem load_todos_spec :
    load_todos .missing = [] ∧
    load_todos .invalidJson = [] ∧
    (∀ j : Json, (∀ items : List Json, j ≠ .arr items) →
      load_todos (.content j) = []) ∧
    (∀ items : List Json,
      load_todos (.content (.arr items)) = items.filterMap normalize_todo) := by
  refine ⟨rfl, rfl, ?_, fun items => rfl⟩
  intro j hj
  match j with
  | .arr items => exact absurd rfl (hj items)
  | .null | .bool _ | .num _ | .str _ | .obj _ => rfl

theorem load_todos_spec_witness :
    load_todos (.content (.obj [("task", Json.str "x")])) = [] ∧
    load_todos (.content (.arr
      [Json.str "junk",
       Json.obj [("task", Json.str "a"), ("done", Json.num 2)]])) =
      [Json.obj [("task", Json.str "a"), ("done", Json.bool true)]] := by
  constructor
  · exact load_todos_spec.2.2.1 _ (fun items h => Json.noConfusion h)
  · rw [load_todos_spec.2.2.2]; rfl

/-- C4: `Normalize` yields nothing on non-objects and on objects whose
`task` is missing, not a string, or blank; otherwise it yields a record
with exactly the keys `task` (verbatim), `done` (truthiness coercion,
defaulting to false when absent) and `due` only when the input's `due` is
a string non-empty after trimming (kept verbatim), all other keys
dropped. -/
theorem normalize_todo_spec :
    (∀ j : Json, (∀ m, j ≠ .obj m) → normalize_todo j = none) ∧
    (∀ m, getKey m "task" = none → normalize_todo (.obj m) = none) ∧
    (∀ m v, getKey m "task" = some v → (∀ t, v ≠ .str t) →
      normalize_todo (.obj m) = none) ∧
    (∀ m t, getKey m "task" = some (.str t) → isBlank t = true →
      normalize_todo (.obj m) = none) ∧
    (∀ m t, getKey m "task" = some (.str t) → isBlank t = false →
      normalize_todo (.obj m) = some (.obj (
        [("task", Json.str t),
         ("done", Json.bool (pyTruthy ((getKey m "done").getD (.bool false))))] ++
        (match getKey m "due" with
         | some (.str d) => if isBlank d then [] else [("due", Json.str d)]
         | _ => [])))) := by
  refine ⟨?_, ?_, ?_, ?_, ?_⟩
  · intro j hj
    match j with
    | .obj m => exact absurd rfl (hj m)
    | .null | .bool _ | .num _ | .str _ | .arr _ => rfl
  · intro m hm
    simp [normalize_todo, hm]
  · intro m v hm hv
    simp only [normalize_todo, hm]
    match v with
    | .str t => exact absurd rfl (hv t)
    | .null | .bool _ | .num _ | .arr _ | .obj _ => rfl
  · intro m t hm hb
    simp [normalize_todo, hm, hb]
  · intro m t hm hb
    simp only [normalize_todo, hm, hb, Bool.false_eq_true, if_false]
    rcases hdue : getKey m "due" with _ | dv
    · rfl
    · match dv with
      | .str d =>
        by_cases hbd : isBlank d
        · simp [hbd]
        · simp [hbd]
      | .null | .bool _ | .num _ | .arr _ | .obj _ => rfl

theorem normalize_todo_spec_witness :
    normalize_todo (.obj [("task", Json.str " T "), ("done", Json.num 5),
                          ("due", Json.str "  "), ("extra", Json.null)]) =
      some (.obj [("task", Json.str " T "), ("done", Json.bool true)]) := by
  have h := normalize_todo_spec.2.2.2.2
    [("task", Json.str " T "), ("done", Json.num 5),
     ("due", Json.str "  "), ("extra", Json.null)] " T " rfl rfl
  simpa using h

/-- C5: every record returned by `Load` satisfies the §3 invariants —
`task` is a string non-empty after trimming, `done` is a boolean, and
`due`, if present, is a non-empty string — so no violating record ever
reaches a caller of `Load`. -/
theorem load_todos_invariant (fs : FileState) :
    ∀ j ∈ load_todos fs, recordInv j = true :=
  fun _ hj => recordInv_of_canonical (canonical_of_mem_load hj)

theorem load_todos_invariant_witness :
    recordInv (Json.obj [("task", Json.str "a"), ("done", Json.bool false)]) = true :=
  load_todos_invariant
    (save_todos [Json.obj [("task", Json.str "a"), ("done", Json.bool false)]])
    _ (List.Mem.head _)

/-- C6 counterexample: `due` present but equal to `""` with `done = true`.
The claim's case split puts every present `due` with `done = true` into
the plain `" (due: <due>)"` branch, but `if not due:` in the code treats
the empty string like an absent date and returns `""`. -/
theorem format_due_date_counterexample :
    format_due_date ⟨2026, 10, 12⟩ (some "") true = "" ∧
    (" (due: )" : String) ≠ "" := by
  exact ⟨rfl, by decide⟩

/-- C6 amended: `FormatDueDate` returns the empty string when `due` is
absent *or is the empty string*; otherwise plain `" (due: <due>)"`
whenever `done` is true, plain `" (due: <due>)"` when `due` does not
parse as strict `YYYY-MM-DD`, and otherwise, with
`daysLeft = due_date - today` in whole days: red `" (OVERDUE: <due>)"`
when `daysLeft < 0`, yellow `" (due: TODAY)"` when `daysLeft = 0`,
yellow `" (due: tomorrow)"` when `daysLeft = 1`, and plain
`" (due: <due>)"` otherwise. -/
theorem format_due_date_spec (today : Date) (due : Option String) (done : Bool) :
    (due = none ∨ due = some "" → format_due_date today due done = "") ∧
    (∀ s, due = some s → s ≠ "" → done = true →
      format_due_date today due done = " (due: " ++ s ++ ")") ∧
    (∀ s, due = some s → s ≠ "" → done = false → strptimeIso s = none →
      format_due_date today due done = " (due: " ++ s ++ ")") ∧
    (∀ s dt, due = some s → s ≠ "" → done = false → strptimeIso s = some dt →
      (((toOrdinal dt : Int) - toOrdinal today < 0 →
        format_due_date today due done = " \x1b[91m(OVERDUE: " ++ s ++ ")\x1b[0m") ∧
      ((toOrdinal dt : Int) - toOrdinal today = 0 →
        format_due_date today due done = " \x1b[93m(due: TODAY)\x1b[0m") ∧
      ((toOrdinal dt : Int) - toOrdinal today = 1 →
        format_due_date today due done = " \x1b[93m(due: tomorrow)\x1b[0m") ∧
      (1 < (toOrdinal dt : Int) - toOrdinal today →
        format_due_date today due done = " (due: " ++ s ++ ")"))) := by
  refine ⟨?_, ?_, ?_, ?_⟩
  · rintro (rfl | rfl) <;> rfl
  · rintro s rfl hs rfl
    simp [format_due_date, hs]
  · rintro s rfl hs rfl hp
    simp [format_due_date, hs, hp]
  · rintro s dt rfl hs rfl hp
    refine ⟨fun hd => ?_, fun hd => ?_, fun hd => ?_, fun hd => ?_⟩
    · simp [format_due_date, hs, hp, hd]
    · simp [format_due_date, hs, hp, hd]
    · simp [format_due_date, hs, hp, hd]
    · have h1 : ¬((toOrdinal dt : Int) - (toOrdinal today : Int) < 0) := by omega
      have h2 : ¬((toOrdinal dt : Int) - (toOrdinal today : Int) = 0) := by omega
      have h3 : ¬((toOrdinal dt : Int) - (toOrdinal today : Int) = 1) := by omega
      simp [format_due_date, hs, hp, h1, h2, h3]

theorem format_due_date_spec_witness :
    format_due_date ⟨2026, 10, 12⟩ (some "2026-01-15") true = " (due: 2026-01-15)" ∧
    format_due_date ⟨2026, 10, 12⟩ (some "2026-10-11") false =
      " \x1b[91m(OVERDUE: 2026-10-11)\x1b[0m" := by
  constructor
  · exact (format_due_date_spec ⟨2026, 10, 12⟩ (some "2026-01-15") true).2.1
      _ rfl (by decide) rfl
  · exact ((format_due_date_spec ⟨2026, 10, 12⟩ (some "2026-10-11") false).2.2.2
      _ ⟨2026, 10, 11⟩ rfl (by decide) rfl (by decide)).1 (by decide)

/-- C2 counterexample: 2028 is a leap year, so 02/29 is a valid
month/day combination in that current year, yet `parse_date` rejects it:
`strptime("%m/%d")` builds `datetime(1900, 2, 29)` (the no-year default),
which raises before the current year is ever substituted. -/
theorem parse_date_counterexample :
    validDate 2028 2 29 = true ∧ parse_date 2028 "02/29" = none := by
  exact ⟨by decide, rfl⟩

set_option maxHeartbeats 4000000 in
/-- C2 amended: `ParseDate` tries ISO `YYYY-MM-DD`, US `MM/DD/YYYY` and
short US `MM/DD` in that order and returns the canonical `YYYY-MM-DD`
rendering of the first that parses; inputs matching none yield nothing.
For the short `MM/DD` form the month/day is first validated against the
default year 1900 and only then is the current calendar year substituted
(and re-validated), so `02/29` never parses — even when the current year
is a leap year — while every other month/day combination valid in the
current year parses. -/
theorem parse_date_spec (y : Nat) (s : String) :
    (∀ dt, strptimeIso s = some dt → parse_date y s = some (fmtYmd dt)) ∧
    (∀ dt, strptimeIso s = none → strptimeUs s = some dt →
      parse_date y s = some (fmtYmd dt)) ∧
    (∀ dt, strptimeIso s = none → strptimeUs s = none → strptimeMd s = some dt →
      parse_date y s =
        if validDate y dt.month dt.day then some (fmtYmd ⟨y, dt.month, dt.day⟩)
        else none) ∧
    (strptimeIso s = none → strptimeUs s = none → strptimeMd s = none →
      parse_date y s = none) ∧
    (parse_date y "02/29" = none) ∧
    (∀ m d, validDate y m d = true → (m, d) ≠ (2, 29) →
      parse_date y (padZero 2 m ++ "/" ++ padZero 2 d) = some (fmtYmd ⟨y, m, d⟩)) := by
  refine ⟨?_, ?_, ?_, ?_, rfl, ?_⟩
  · intro dt h1
    simp [parse_date, h1]
  · intro dt h1 h2
    simp [parse_date, h1, h2]
  · intro dt h1 h2 h3
    simp [parse_date, h1, h2, h3]
  · intro h1 h2 h3
    simp [parse_date, h1, h2, h3]
  · intro m d h hne
    have hv := h
    simp only [validDate, Bool.and_eq_true, decide_eq_true_eq] at hv
    obtain ⟨⟨⟨⟨⟨hy1, hy2⟩, hm1⟩, hm2⟩, hd1⟩, hdm⟩ := hv
    have hd31 : d ≤ 31 := le_trans hdm (daysInMonth_le y m)
    interval_cases m <;> interval_cases d <;>
      first
      | exact absurd rfl hne
      | exact parse_date_md_valid y _ _ _ (by decide) (by decide) (by decide) h
      | (exfalso; cases hly : isLeapYear y <;>
          simp [validDate, daysInMonth, hly] at h)

theorem parse_date_spec_witness :
    parse_date 2026 "2026-01-15" = some "2026-01-15" ∧
    parse_date 2026 "01/15/2027" = some "2027-01-15" ∧
    parse_date 2026 (padZero 2 1 ++ "/" ++ padZero 2 15) = some "2026-01-15" := by
  refine ⟨?_, ?_, ?_⟩
  · exact (parse_date_spec 2026 "2026-01-15").1 ⟨2026, 1, 15⟩ (by decide)
  · exact (parse_date_spec 2026 "01/15/2027").2.1 ⟨2027, 1, 15⟩ (by decide) (by decide)
  · exact (parse_date_spec 2026 "01/15").2.2.2.2.2 1 15 (by decide) (by decide)

/-- C7: for a 1-based index into the loaded collection, `Complete` sets
`done = true` on the record at that position and persists, leaving every
other record and every other field of the completed record unchanged;
out-of-range indices raise invalid-index and leave the persisted state
unchanged. -/
theorem complete_todo_spec (fs : FileState) (index : Int) :
    (1 ≤ index ∧ index ≤ ((load_todos fs).length : Int) →
      (complete_todo fs index).2 = .ok ∧
      (complete_todo fs index).1 =
        save_todos (listModify (load_todos fs) (index - 1).toNat
          (fun t => dictSet t "done" (.bool true))) ∧
      (listModify (load_todos fs) (index - 1).toNat
          (fun t => dictSet t "done" (.bool true))).length =
        (load_todos fs).length ∧
      (∀ j : Nat, j ≠ (index - 1).toNat →
        (listModify (load_todos fs) (index - 1).toNat
          (fun t => dictSet t "done" (.bool true))).getD j .null =
          (load_todos fs).getD j .null) ∧
      jGet ((listModify (load_todos fs) (index - 1).toNat
          (fun t => dictSet t "done" (.bool true))).getD (index - 1).toNat .null)
          "task" =
        jGet ((load_todos fs).getD (index - 1).toNat .null) "task" ∧
      jGet ((listModify (load_todos fs) (index - 1).toNat
          (fun t => dictSet t "done" (.bool true))).getD (index - 1).toNat .null)
          "due" =
        jGet ((load_todos fs).getD (index - 1).toNat .null) "due" ∧
      jGet ((listModify (load_todos fs) (index - 1).toNat
          (fun t => dictSet t "done" (.bool true))).getD (index - 1).toNat .null)
          "done" = some (.bool true)) ∧
    (¬(1 ≤ index ∧ index ≤ ((load_todos fs).length : Int)) →
      complete_todo fs index = (fs, .invalidIndex)) := by
  constructor
  · intro h
    have hio : (index - 1).toNat < (load_todos fs).length := by omega
    have hcanon :=
      canonical_of_mem_load (mem_of_getD (d := Json.null) hio)
    obtain ⟨ht, hd, hdn⟩ := dictSet_done_of_canonical hcanon
    refine ⟨by simp [complete_todo, h], by simp [complete_todo, h],
      length_listModify _ _ _,
      fun j hj => getD_listModify_ne _ _ _ _ _ hj, ?_, ?_, ?_⟩
    · rw [getD_listModify_eq _ _ _ _ hio]; exact ht
    · rw [getD_listModify_eq _ _ _ _ hio]; exact hd
    · rw [getD_listModify_eq _ _ _ _ hio]; exact hdn
  · intro h
    simp [complete_todo, h]

theorem complete_todo_spec_witness :
    (complete_todo (save_todos
      [Json.obj [("task", Json.str "a"), ("done", Json.bool false)],
       Json.obj [("task", Json.str "b"), ("done", Json.bool false)]]) 2).2 =
      .ok ∧
    (complete_todo (save_todos
      [Json.obj [("task", Json.str "a"), ("done", Json.bool false)],
       Json.obj [("task", Json.str "b"), ("done", Json.bool false)]]) 2).1 =
      save_todos
        [Json.obj [("task", Json.str "a"), ("done", Json.bool false)],
         Json.obj [("task", Json.str "b"), ("done", Json.bool true)]] ∧
    complete_todo (save_todos
      [Json.obj [("task", Json.str "a"), ("done", Json.bool false)]]) 0 =
      (save_todos [Json.obj [("task", Json.str "a"), ("done", Json.bool false)]],
       .invalidIndex) := by
  refine ⟨?_, ?_, ?_⟩
  · exact ((complete_todo_spec (save_todos
      [Json.obj [("task", Json.str "a"), ("done", Json.bool false)],
       Json.obj [("task", Json.str "b"), ("done", Json.bool false)]]) 2).1
      (by decide)).1
  · exact ((complete_todo_spec (save_todos
      [Json.obj [("task", Json.str "a"), ("done", Json.bool false)],
       Json.obj [("task", Json.str "b"), ("done", Json.bool false)]]) 2).1
      (by decide)).2.1
  · exact (complete_todo_spec (save_todos
      [Json.obj [("task", Json.str "a"), ("done", Json.bool false)]]) 0).2
      (by decide)

/-- C8: for a 1-based index into the loaded collection, `Remove` deletes
exactly the record at that position and persists: the collection shrinks
by one, earlier records keep their positions and later ones shift down by
one; out-of-range indices raise invalid-index and leave the state
unchanged. -/
theorem remove_todo_spec (fs : FileState) (index : Int) :
    (1 ≤ index ∧ index ≤ ((load_todos fs).length : Int) →
      (remove_todo fs index).2 = .ok ∧
      (remove_todo fs index).1 =
        save_todos ((load_todos fs).eraseIdx (index - 1).toNat) ∧
      ((load_todos fs).eraseIdx (index - 1).toNat).length + 1 =
        (load_todos fs).length ∧
      (∀ j : Nat, j < (index - 1).toNat →
        ((load_todos fs).eraseIdx (index - 1).toNat).getD j .null =
          (load_todos fs).getD j .null) ∧
      (∀ j : Nat, (index - 1).toNat ≤ j →
        ((load_todos fs).eraseIdx (index - 1).toNat).getD j .null =
          (load_todos fs).getD (j + 1) .null)) ∧
    (¬(1 ≤ index ∧ index ≤ ((load_todos fs).length : Int)) →
      remove_todo fs index = (fs, .invalidIndex)) := by
  constructor
  · intro h
    have hio : (index - 1).toNat < (load_todos fs).length := by omega
    exact ⟨by simp [remove_todo, h], by simp [remove_todo, h],
      length_eraseIdx_succ _ _ hio,
      fun j hj => getD_eraseIdx_lt _ _ _ _ hj,
      fun j hj => getD_eraseIdx_ge _ _ _ _ hj⟩
  · intro h
    simp [remove_todo, h]

theorem remove_todo_spec_witness :
    (remove_todo (save_todos
      [Json.obj [("task", Json.str "a"), ("done", Json.bool false)],
       Json.obj [("task", Json.str "b"), ("done", Json.bool false)]]) 1).2 =
      .ok ∧
    (remove_todo (save_todos
      [Json.obj [("task", Json.str "a"), ("done", Json.bool false)],
       Json.obj [("task", Json.str "b"), ("done", Json.bool false)]]) 1).1 =
      save_todos [Json.obj [("task", Json.str "b"), ("done", Json.bool false)]] ∧
    remove_todo (save_todos
      [Json.obj [("task", Json.str "a"), ("done", Json.bool false)]]) 2 =
      (save_todos [Json.obj [("task", Json.str "a"), ("done", Json.bool false)]],
       .invalidIndex) := by
  refine ⟨?_, ?_, ?_⟩
  · exact ((remove_todo_spec (save_todos
      [Json.obj [("task", Json.str "a"), ("done", Json.bool false)],
       Json.obj [("task", Json.str "b"), ("done", Json.bool false)]]) 1).1
      (by decide)).1
  · exact ((remove_todo_spec (save_todos
      [Json.obj [("task", Json.str "a"), ("done", Json.bool false)],
       Json.obj [("task", Json.str "b"), ("done", Json.bool false)]]) 1).1
      (by decide)).2.1
  · exact (remove_todo_spec (save_todos
      [Json.obj [("task", Json.str "a"), ("done", Json.bool false)]]) 2).2
      (by decide)

/-- C9 counterexample: the supplied rawDue `""` fails all three ParseDate
grammars (`parse_date` yields nothing on it), yet `Add` neither raises
invalid-date nor leaves the store untouched: `if due:` treats the empty
string like no due date, so the record is appended and saved. -/
theorem add_todo_counterexample :
    parse_date 2026 "" = none ∧
    add_todo 2026 .missing "T" (some "") =
      (save_todos [Json.obj [("task", Json.str "T"), ("done", Json.bool false)]],
       .added (Json.obj [("task", Json.str "T"), ("done", Json.bool false)])) ∧
    save_todos [Json.obj [("task", Json.str "T"), ("done", Json.bool false)]] ≠
      FileState.missing := by
  exact ⟨rfl, rfl, fun h => FileState.noConfusion h⟩

/-- C9 amended: for every supplied *non-empty* rawDue string failing all
three ParseDate grammars, `Add` raises invalid-date, appends no record and
saves nothing; on a parseable rawDue it appends
`{task, done: false, due: parsed}` and persists; when rawDue is absent —
or is the empty string, which `if due:` treats as absent — it appends
`{task, done: false}` and persists. -/
theorem add_todo_spec (y : Nat) (fs : FileState) (task : String)
    (due : Option String) :
    (∀ d, due = some d → d ≠ "" → parse_date y d = none →
      add_todo y fs task due = (fs, .invalidDate)) ∧
    (∀ d p, due = some d → d ≠ "" → parse_date y d = some p →
      add_todo y fs task due =
        (save_todos (load_todos fs ++
          [Json.obj [("task", Json.str task), ("done", Json.bool false),
                     ("due", Json.str p)]]),
         .added (Json.obj [("task", Json.str task), ("done", Json.bool false),
                           ("due", Json.str p)]))) ∧
    ((due = none ∨ due = some "") →
      add_todo y fs task due =
        (save_todos (load_todos fs ++
          [Json.obj [("task", Json.str task), ("done", Json.bool false)]]),
         .added (Json.obj [("task", Json.str task), ("done", Json.bool false)]))) := by
  refine ⟨?_, ?_, ?_⟩
  · rintro d rfl hd hp
    simp [add_todo, optStrTruthy, bne_iff_ne, hd, hp]
  · rintro d p rfl hd hp
    simp [add_todo, optStrTruthy, bne_iff_ne, hd, hp, dictSet, getKey,
      List.lookup]
  · rintro (rfl | rfl) <;> rfl

theorem add_todo_spec_witness :
    add_todo 2026 .missing "T" (some "bogus") = (.missing, .invalidDate) ∧
    add_todo 2026 .missing "T" (some "01/15") =
      (save_todos [Json.obj [("task", Json.str "T"), ("done", Json.bool false),
                             ("due", Json.str "2026-01-15")]],
       .added (Json.obj [("task", Json.str "T"), ("done", Json.bool false),
                         ("due", Json.str "2026-01-15")])) ∧
    add_todo 2026 .missing "T" none =
      (save_todos [Json.obj [("task", Json.str "T"), ("done", Json.bool false)]],
       .added (Json.obj [("task", Json.str "T"), ("done", Json.bool false)])) := by
  refine ⟨?_, ?_, ?_⟩
  · exact (add_todo_spec 2026 .missing "T" (some "bogus")).1 "bogus" rfl
      (by decide) (by decide)
  · exact (add_todo_spec 2026 .missing "T" (some "01/15")).2.1 "01/15"
      "2026-01-15" rfl (by decide) (by decide)
  · exact (add_todo_spec 2026 .missing "T" none).2.2 (Or.inl rfl)

/-- C10: `Add` does not enforce the non-empty-task invariant — a blank
task is appended and persisted — and the subsequent `Load` drops the
record, so Add followed by Load returns the collection without the
just-added task. -/
theorem add_blank_task_dropped (y : Nat) (fs : FileState) (task : String)
    (h : isBlank task = true) :
    add_todo y fs task none =
      (save_todos (load_todos fs ++
        [Json.obj [("task", Json.str task), ("done", Json.bool false)]]),
       .added (Json.obj [("task", Json.str task), ("done", Json.bool false)])) ∧
    load_todos (add_todo y fs task none).1 = load_todos fs := by
  refine ⟨rfl, ?_⟩
  have hbad : normalize_todo
      (Json.obj [("task", Json.str task), ("done", Json.bool false)]) = none := by
    simp [normalize_todo, getKey, List.lookup, h]
  show (load_todos fs ++
      [Json.obj [("task", Json.str task), ("done", Json.bool false)]]).filterMap
      normalize_todo = load_todos fs
  rw [List.filterMap_append, filterMap_normalize_load]
  simp [hbad]

theorem add_blank_task_dropped_witness :
    load_todos (add_todo 2026 .missing "   " none).1 = [] :=
  (add_blank_task_dropped 2026 .missing "   " (by decide)).2

end TodoApp
